import Mathlib

/-!
Verification of the PowerPoint template-application engine (`src/main.py`).

Shallow embedding: shape text, names, references and identifiers are modelled
as `List Char` (`Str`); Python dicts are modelled by their iteration order as
association lists; the presentation is a list of slides, each holding a list of
shapes; table contents are row-major lists of cell strings; image geometry uses
integers with exact rational arithmetic for the scale computation.
-/

namespace PptxEngine

/-- Shape text, names and references, modelled as lists of characters. -/
abbrev Str := List Char

/-- Convert a Lean string literal to the character-list representation. -/
def str (s : String) : Str := s.toList

/-! ## Python string primitives used by the source -/

/-- Whitespace recognised by Python's `int` builtin when stripping a string. -/
def isPyWs (c : Char) : Bool :=
  c = ' ' || c = '\t' || c = '\n' || c = '\r'

/-- Strip leading and trailing whitespace. -/
def stripWs (s : Str) : Str :=
  ((s.dropWhile isPyWs).reverse.dropWhile isPyWs).reverse

/-- Decimal value of a digit string. -/
def digitsToNat (ds : Str) : Nat :=
  ds.foldl (fun a c => 10 * a + (c.toNat - 48)) 0

/-- Value of a nonempty all-digit string, `none` otherwise. -/
def digitsVal (ds : Str) : Option Nat :=
  if ds ≠ [] ∧ ds.all Char.isDigit then some (digitsToNat ds) else none

/-- Models Python's `int(s)` on a decimal string: optional surrounding
whitespace, optional sign, then digits; `none` models the `ValueError`. -/
def pyInt? (s : Str) : Option Int :=
  match stripWs s with
  | [] => none
  | c :: rest =>
    if c = '+' then (digitsVal rest).map Int.ofNat
    else if c = '-' then (digitsVal rest).map (fun n => -(n : Int))
    else (digitsVal (c :: rest)).map Int.ofNat

/-- Models Python's `str.isdigit` on decimal strings: nonempty and
every character a digit. -/
def isdigitPy (s : Str) : Bool :=
  !s.isEmpty && s.all Char.isDigit

/-- Python equality between a `str` and an `int` value: values of different
types never compare equal, so this is constantly `false`. -/
def pyEqStrInt (_s : Str) (_n : Int) : Bool := false

/-- Python list indexing `l[i]` with negative indices counting from the end;
`none` models `IndexError`. -/
def pyGet? (l : List α) (i : Int) : Option α :=
  if 0 ≤ i then l.get? i.toNat
  else if 0 ≤ (l.length : Int) + i then l.get? ((l.length : Int) + i).toNat
  else none

/-- Models Python's `needle in hay` on strings: `needle` occurs as a
contiguous substring of `hay`. -/
def strContains : Str → Str → Bool
  | [], needle => needle.isEmpty
  | c :: rest, needle => needle.isPrefixOf (c :: rest) || strContains rest needle

/-! ## `str.replace`: replace every non-overlapping occurrence, left to right -/

/-- Scanner for `replaceAll`, structurally recursive on a fuel argument that
bounds the scanned length (every step consumes at least one character, so
fuel equal to the text length is enough). -/
def replaceAllFuel (pat rep : Str) : Nat → Str → Str
  | _, [] => []
  | 0, s => s
  | fuel + 1, c :: rest =>
    if pat ≠ [] ∧ pat.isPrefixOf (c :: rest) then
      rep ++ replaceAllFuel pat rep fuel ((c :: rest).drop pat.length)
    else
      c :: replaceAllFuel pat rep fuel rest

/-- Models Python's `text.replace(pat, rep)` for a nonempty pattern: scan left
to right, replacing each non-overlapping occurrence and continuing after the
replacement text. -/
def replaceAll (pat rep s : Str) : Str :=
  replaceAllFuel pat rep s.length s

/-! ## Data model -/

/-- A scalar value supplied in the data payload; `pyStr` is Python's `str`. -/
inductive Scalar
  | s (v : Str)
  | i (n : Int)
  | b (v : Bool)
deriving DecidableEq

/-- Python's `str` conversion applied to a payload scalar. -/
def pyStr : Scalar → Str
  | .s v => v
  | .i n => str (toString n)
  | .b v => if v then str "True" else str "False"

/-- A table: a column count and row-major cell texts.  `table.rows` of the
document library corresponds to `cells.length` and `table.columns` to `cols`;
real tables are rectangular (every row has `cols` cells). -/
structure Table where
  cols : Nat
  cells : List (List Str)
deriving DecidableEq

/-- Geometry of a shape in the document's native unit (EMU). -/
structure Geom where
  left : Int
  top : Int
  width : Int
  height : Int
deriving DecidableEq

/-- The shape kinds the engine distinguishes (`MSO_SHAPE_TYPE`). -/
inductive ShapeKind
  | picture
  | placeholder
  | other
deriving DecidableEq

/-- A shape on a slide.  `text = none` models a shape without a `text`
attribute (e.g. a table-bearing graphic frame); `table = none` a shape with
`has_table` false; `image` records the file path of an inserted picture. -/
structure Shape where
  name : Str
  altText : Str
  kind : ShapeKind
  text : Option Str
  table : Option Table
  image : Option Str
  left : Int
  top : Int
  width : Int
  height : Int
deriving DecidableEq

/-- A slide: `title` is the text of its title shape when `slide.shapes.title`
is not `None` (any text, including the empty string), plus its shapes. -/
structure Slide where
  title : Option Str
  shapes : List Shape
deriving DecidableEq

/-- A table directive: optional `identifier` field and optional `data`
matrix (`"data" in table_data`). -/
structure TableDirective where
  identifier : Option Str
  data : Option (List (List Scalar))
deriving DecidableEq

/-- A slide directive: the three optional sections of a payload entry. -/
structure SlideDirective where
  text : Option (List (Str × Str))
  tables : Option (List (Str × TableDirective))
  images : Option (List (Str × Str))
deriving DecidableEq

/-- The warnings the engine logs while recovering from per-item failures. -/
inductive Warning
  | slideNotFound (name : Str)
  | noTablesInSlide
  | tableNotFound (ref : Str)
  | tableEntryError (ref : Str)
  | imageFileNotFound (path : Str)
  | noImageIndexTarget (ref : Str)
  | noImageNameTarget (ref : Str)
deriving DecidableEq

/-! ## Slide Index (`_create_slide_map`) -/

/-- One iteration of the slide-map loop: when the slide has a title shape
(`if slide.shapes.title:` — truthy for any shape object, whatever its text),
record `{index: i}` under the title text, overwriting a prior entry. -/
def slideMapUpdate (m : Str → Option Nat) (i : Nat) (sl : Slide) :
    Str → Option Nat :=
  match sl.title with
  | none => m
  | some tt => fun t => if t = tt then some i else m t

/-- The `for i, slide in enumerate(self.prs.slides)` loop. -/
def createSlideMapAux : Nat → (Str → Option Nat) → List Slide → (Str → Option Nat)
  | _, m, [] => m
  | i, m, sl :: rest => createSlideMapAux (i + 1) (slideMapUpdate m i sl) rest

/-- `_create_slide_map`: title text to zero-based slide position. -/
def createSlideMap (slides : List Slide) : Str → Option Nat :=
  createSlideMapAux 0 (fun _ => none) slides

/-! ## Placeholder Text Resolver (`_replace_text_placeholders`) -/

/-- The literal token `{\x7b` ++ key ++ `\x7d}` built for each map key. -/
def mkToken (k : Str) : Str :=
  '{' :: '{' :: (k ++ ['}', '}'])

/-- The per-shape key loop: for each `(key, value)` pair in iteration order,
if the token occurs in the running text, replace all its occurrences. -/
def processShapeText (textData : List (Str × Str)) (t : Str) : Str :=
  textData.foldl
    (fun acc kv =>
      if strContains acc (mkToken kv.1) then replaceAll (mkToken kv.1) kv.2 acc
      else acc)
    t

/-- The write-back condition `text != shape.text` after the key loop. -/
def writesBack (textData : List (Str × Str)) (t : Str) : Bool :=
  processShapeText textData t ≠ t

/-- `_replace_text_placeholders`: shapes without a `text` attribute are
skipped; a shape's text is written back only when it changed. -/
def replaceTextPlaceholders (textData : List (Str × Str))
    (shapes : List Shape) : List Shape :=
  shapes.map fun sh =>
    match sh.text with
    | none => sh
    | some t =>
      let t2 := processShapeText textData t
      if t2 = t then sh else { sh with text := some t2 }

/-! ## Single image replacement geometry (`_replace_single_image`) -/

/-- Python's `int()` applied to a rational: truncation toward zero. -/
def pyTrunc (q : ℚ) : Int :=
  if 0 ≤ q then ⌊q⌋ else -⌊-q⌋

/-- The uniform scale of `_replace_single_image`:
`min(box_width / img_width, box_height / img_height)`. -/
def scaleOf (boxW boxH imgW imgH : Int) : ℚ :=
  let ratioW : ℚ := (boxW : ℚ) / (imgW : ℚ)
  let ratioH : ℚ := (boxH : ℚ) / (imgH : ℚ)
  min ratioW ratioH

/-- The geometry computed by `_replace_single_image`: uniformly scaled,
truncated size, placed centered in the original bounding box. -/
def fitGeometry (left top boxW boxH imgW imgH : Int) : Geom :=
  let scale : ℚ := scaleOf boxW boxH imgW imgH
  let newW : Int := pyTrunc ((imgW : ℚ) * scale)
  let newH : Int := pyTrunc ((imgH : ℚ) * scale)
  let newLeft : Int := left + pyTrunc (((boxW - newW : Int) : ℚ) / 2)
  let newTop : Int := top + pyTrunc (((boxH - newH : Int) : ℚ) / 2)
  ⟨newLeft, newTop, newW, newH⟩

/-- The picture shape appended by `slide.shapes.add_picture(path, ...)`. -/
def newPictureShape (path : Str) (g : Geom) : Shape :=
  { name := [], altText := [], kind := .picture, text := none, table := none,
    image := some path, left := g.left, top := g.top, width := g.width,
    height := g.height }

/-- `_replace_single_image` on the shape at absolute position `idx`: read its
bounding box, detach it from the shape tree, decode the image's pixel size,
and append a new picture with the fitted geometry. -/
def replaceSingleAt (sizes : Str → Nat × Nat) (shapes : List Shape)
    (idx : Nat) (path : Str) : List Shape :=
  match shapes.get? idx with
  | none => shapes
  | some sh =>
    let wh := sizes path
    let g := fitGeometry sh.left sh.top sh.width sh.height
      (wh.1 : Int) (wh.2 : Int)
    shapes.eraseIdx idx ++ [newPictureShape path g]

/-! ## Table Filler (`_update_tables`) -/

/-- Set the text of cell `(r, c)` (`table.cell(r, c).text = s`). -/
def setCellText (t : Table) (r c : Nat) (s : Str) : Table :=
  { t with cells := t.cells.set r ((t.cells.getD r []).set c s) }

/-- Read the text of cell `(r, c)`, with the empty string as default for
out-of-range coordinates. -/
def cellGetD (t : Table) (r c : Nat) : Str :=
  (t.cells.getD r []).getD c []

/-- The inner column loop of the fill: write columns `0 ≤ c < k` of row `r`
from `rowData`. -/
def fillRowCells (rowData : List Scalar) (r k : Nat) (t : Table) : Table :=
  (List.range k).foldl
    (fun acc c => setCellText acc r c (pyStr (rowData.getD c (Scalar.s []))))
    t

/-- The fill loops: `rows = min(len(data), len(table.rows))` rows, and per
row `cols = min(len(row_data), len(table.columns))` columns. -/
def fillTable (t : Table) (data : List (List Scalar)) : Table :=
  (List.range (min data.length t.cells.length)).foldl
    (fun acc r =>
      let rowData := data.getD r []
      fillRowCells rowData r (min rowData.length acc.cols) acc)
    t

/-- The outer row loop of the fill, run for the first `n` rows (used to
reason about `fillTable` by induction on the number of rows written). -/
def fillRowsLoop (data : List (List Scalar)) (n : Nat) (t : Table) : Table :=
  (List.range n).foldl
    (fun acc r =>
      let rowData := data.getD r []
      fillRowCells rowData r (min rowData.length acc.cols) acc)
    t

/-- The table-bearing shapes of a slide, in shape order. -/
def tableShapesOf (shapes : List Shape) : List Shape :=
  shapes.filter (fun sh => sh.table.isSome)

/-- Outcome of resolving one table reference against the table shapes. -/
inductive TableResolution
  | positional (j : Nat)
  | fallback (j : Nat)
  | unresolved
  | error
deriving DecidableEq

/-- The fallback scan over the table shapes, carrying the position `j` of the
current shape.  The reference was already rebound to the parsed integer `i`,
so the `shape.name == table_index` test compares a string with an integer and
is constantly false; the identifier test is tried only for a truthy
(present, nonempty) `identifier`, and reads `shape.text`, which raises
(`.error`) on a shape without a `text` attribute. -/
def scanFallback (i : Int) (td : TableDirective) :
    List Shape → Nat → TableResolution
  | [], _ => .unresolved
  | sh :: rest, j =>
    if pyEqStrInt sh.name i then .fallback j
    else
      match td.identifier with
      | some ident =>
        if ident ≠ [] then
          match sh.text with
          | none => .error
          | some t =>
            if strContains t ident then .fallback j
            else scanFallback i td rest (j + 1)
        else scanFallback i td rest (j + 1)
      | none => scanFallback i td rest (j + 1)

/-- Resolve one table reference: `int(table_index)` (`ValueError` gives
`.error`), then positional selection when `table_index < len(table_shapes)`
(Python indexing, so negative indices count from the end and an index below
`-len` raises `IndexError`), otherwise the fallback scan. -/
def resolveTable (ts : List Shape) (ref : Str) (td : TableDirective) :
    TableResolution :=
  match pyInt? ref with
  | none => .error
  | some i =>
    if i < (ts.length : Int) then
      match pyGet? ts i with
      | some _ =>
        .positional (if 0 ≤ i then i.toNat else ((ts.length : Int) + i).toNat)
      | none => .error
    else scanFallback i td ts 0

/-- Apply `f` to the table of the `j`-th table-bearing shape of the slide. -/
def updateTableAt : List Shape → Nat → (Table → Table) → List Shape
  | [], _, _ => []
  | sh :: rest, j, f =>
    match sh.table, j with
    | some t, 0 => { sh with table := some (f t) } :: rest
    | some _, Nat.succ j2 => sh :: updateTableAt rest j2 f
    | none, _ => sh :: updateTableAt rest j f

/-- One iteration of the `for table_index, table_data in tables_data.items()`
loop: resolve, then fill when a table was resolved and `data` is present,
else log; exceptions are caught per entry. -/
def updateTablesStep (st : List Shape × List Warning)
    (entry : Str × TableDirective) : List Shape × List Warning :=
  let shapes := st.1
  let ws := st.2
  let ref := entry.1
  let td := entry.2
  match resolveTable (tableShapesOf shapes) ref td with
  | .positional j | .fallback j =>
    match td.data with
    | some m => (updateTableAt shapes j (fun tb => fillTable tb m), ws)
    | none => (shapes, ws ++ [.tableNotFound ref])
  | .unresolved => (shapes, ws ++ [.tableNotFound ref])
  | .error => (shapes, ws ++ [.tableEntryError ref])

/-- `_update_tables`: a slide without table shapes only logs
`TableNotFoundError`; otherwise every entry is processed in order. -/
def updateTables (shapes : List Shape)
    (tablesData : List (Str × TableDirective)) : List Shape × List Warning :=
  if (tableShapesOf shapes).isEmpty then (shapes, [.noTablesInSlide])
  else tablesData.foldl updateTablesStep (shapes, [])

/-! ## Image Substituter (`_replace_images`) -/

def isPicture (sh : Shape) : Bool := sh.kind = ShapeKind.picture

def isPlaceholder (sh : Shape) : Bool := sh.kind = ShapeKind.placeholder

/-- Absolute position in the slide's shape list of the `k`-th shape
satisfying `p` — i.e. the shape `[s for s in shapes if p(s)][k]`. -/
def findNthIdx (p : Shape → Bool) : List Shape → Nat → Nat → Option Nat
  | [], _, _ => none
  | sh :: rest, k, pos =>
    if p sh then
      match k with
      | 0 => some pos
      | Nat.succ k2 => findNthIdx p rest k2 (pos + 1)
    else findNthIdx p rest k (pos + 1)

/-- The name/alt-text match of the non-digit branch: picture or placeholder
kind, and `shape.name == image_name or shape.alt_text == image_name`. -/
def imageNameMatch (ref : Str) (sh : Shape) : Bool :=
  (isPicture sh || isPlaceholder sh) && (sh.name == ref || sh.altText == ref)

/-- One iteration of the `for image_name, image_path in images_data.items()`
loop: a missing file raises `ImageNotFoundError`, caught and logged for this
entry only; an all-digit reference is positional over pictures first, then
placeholders; otherwise the first name/alt-text match is replaced. -/
def replaceImagesStep (fs : Str → Bool) (sizes : Str → Nat × Nat)
    (st : List Shape × List Warning) (entry : Str × Str) :
    List Shape × List Warning :=
  let shapes := st.1
  let ws := st.2
  let ref := entry.1
  let path := entry.2
  if fs path = false then (shapes, ws ++ [.imageFileNotFound path])
  else if isdigitPy ref then
    let i := digitsToNat ref
    match findNthIdx isPicture shapes i 0 with
    | some idx => (replaceSingleAt sizes shapes idx path, ws)
    | none =>
      match findNthIdx isPlaceholder shapes i 0 with
      | some idx => (replaceSingleAt sizes shapes idx path, ws)
      | none => (shapes, ws ++ [.noImageIndexTarget ref])
  else
    match shapes.findIdx? (imageNameMatch ref) with
    | some idx => (replaceSingleAt sizes shapes idx path, ws)
    | none => (shapes, ws ++ [.noImageNameTarget ref])

/-- `_replace_images`: process every entry in order, accumulating warnings. -/
def replaceImages (fs : Str → Bool) (sizes : Str → Nat × Nat)
    (shapes : List Shape) (imagesData : List (Str × Str)) :
    List Shape × List Warning :=
  imagesData.foldl (replaceImagesStep fs sizes) (shapes, [])

/-! ## Template Applier (`apply_data`) -/

/-- The slide-level dispatch: the sections present are applied in the fixed
order `text`, `tables`, `images`. -/
def applySections (fs : Str → Bool) (sizes : Str → Nat × Nat)
    (shapes : List Shape) (d : SlideDirective) : List Shape × List Warning :=
  let s1 := match d.text with
    | some td => replaceTextPlaceholders td shapes
    | none => shapes
  let r2 := match d.tables with
    | some tb => updateTables s1 tb
    | none => (s1, [])
  let r3 := match d.images with
    | some im => replaceImages fs sizes r2.1 im
    | none => (r2.1, [])
  (r3.1, r2.2 ++ r3.2)

/-- One iteration of the `for slide_name, slide_data in data_dict.items()`
loop: an unknown slide title logs one warning and is skipped; a known one is
looked up via the slide map built at load time and its sections applied. -/
def applyDataStep (fs : Str → Bool) (sizes : Str → Nat × Nat)
    (smap : Str → Option Nat) (st : List Slide × List Warning)
    (entry : Str × SlideDirective) : List Slide × List Warning :=
  let slides := st.1
  let ws := st.2
  let name := entry.1
  let d := entry.2
  match smap name with
  | none => (slides, ws ++ [.slideNotFound name])
  | some i =>
    match slides.get? i with
    | none => (slides, ws)
    | some sl =>
      let r := applySections fs sizes sl.shapes d
      (slides.set i { sl with shapes := r.1 }, ws ++ r.2)

/-- `apply_data`: visit payload entries in iteration order against the slide
map built once from the loaded template. -/
def applyData (fs : Str → Bool) (sizes : Str → Nat × Nat)
    (slides : List Slide) (payload : List (Str × SlideDirective)) :
    List Slide × List Warning :=
  payload.foldl (applyDataStep fs sizes (createSlideMap slides)) (slides, [])

/-! ## Concrete fixtures used by witnesses and counterexamples -/

/-- A 2x2 table with distinct cell texts. -/
def sampleTable : Table :=
  ⟨2, [[str "a", str "b"], [str "c", str "d"]]⟩

/-- A table-bearing shape (graphic frame): no `text` attribute. -/
def tShapeA : Shape :=
  { name := str "A", altText := [], kind := .other, text := none,
    table := some sampleTable, image := none,
    left := 0, top := 0, width := 10, height := 10 }

/-- A second table-bearing shape. -/
def tShapeB : Shape := { tShapeA with name := str "B" }

/-- A table-bearing shape whose name is the literal reference `myTable`. -/
def namedTableShape : Shape := { tShapeA with name := str "myTable" }

/-- `sampleTable` after writing `Z` into cell `(0, 0)`. -/
def sampleTableZ : Table := ⟨2, [[str "Z", str "b"], [str "c", str "d"]]⟩

/-- `tShapeB` after writing `Z` into cell `(0, 0)` of its table. -/
def tShapeBFilled : Shape := { tShapeA with name := str "B", table := some sampleTableZ }

/-- A 3x3 supplied data matrix. -/
def data3 : List (List Scalar) :=
  [[.s (str "1"), .s (str "2"), .s (str "3")],
   [.s (str "4"), .s (str "5"), .s (str "6")],
   [.s (str "7"), .s (str "8"), .s (str "9")]]

/-- A picture shape named `pic`. -/
def picShape : Shape :=
  { name := str "pic", altText := [], kind := .picture, text := none,
    table := none, image := some (str "old.png"),
    left := 0, top := 0, width := 200, height := 100 }

/-! ## Helper lemmas -/

/-- Unfolding one key of the per-shape substitution loop. -/
theorem processShapeText_cons (kv : Str × Str) (rest : List (Str × Str))
    (t : Str) :
    processShapeText (kv :: rest) t =
      processShapeText rest
        (if strContains t (mkToken kv.1) then replaceAll (mkToken kv.1) kv.2 t
         else t) := rfl

/-- A text containing no token of any key of the map passes through the key
loop unchanged. -/
theorem processShapeText_no_token (textData : List (Str × Str)) (t : Str)
    (h : ∀ kv ∈ textData, strContains t (mkToken kv.1) = false) :
    processShapeText textData t = t := by
  induction textData with
  | nil => rfl
  | cons kv rest ih =>
    have hkv := h kv (List.mem_cons_self kv rest)
    have hrest : ∀ kv2 ∈ rest, strContains t (mkToken kv2.1) = false :=
      fun kv2 hm => h kv2 (List.mem_cons_of_mem kv hm)
    rw [processShapeText_cons, hkv]
    simpa using ih hrest

/-- C9: a shape whose text contains no token `{\x7b`key`\x7d}` for any key of
the text map is left unchanged by the Placeholder Text Resolver: the key loop
returns the original text and the write-back test `text != shape.text` is
false, so the text setter is never invoked. -/
theorem C9_no_token_no_write (textData : List (Str × Str)) (t : Str)
    (h : ∀ kv ∈ textData, strContains t (mkToken kv.1) = false) :
    processShapeText textData t = t ∧ writesBack textData t = false := by
  have he := processShapeText_no_token textData t h
  refine ⟨he, ?_⟩
  simp [writesBack, he]

/-- Witness for C9 at a concrete shape text and map. -/
theorem C9_no_token_no_write_witness :
    (∀ kv ∈ [(str "x", str "1")],
      strContains (str "hello") (mkToken kv.1) = false) ∧
    (processShapeText [(str "x", str "1")] (str "hello") = str "hello" ∧
      writesBack [(str "x", str "1")] (str "hello") = false) :=
  ⟨by decide, C9_no_token_no_write [(str "x", str "1")] (str "hello")
    (by decide)⟩

/-- C5 counterexample: the final text is not independent of the iteration
order of the text map.  For text `\x7b\x7ba\x7d\x7d` and the map with
`a ↦ \x7b\x7bb\x7d\x7d` and `b ↦ X`, the two iteration orders of the same
two-entry map produce `X` and `\x7b\x7bb\x7d\x7d` respectively. -/
theorem C5_counterexample :
    [(str "b", str "X"), (str "a", str "\x7b\x7bb\x7d\x7d")] =
      ([(str "a", str "\x7b\x7bb\x7d\x7d"), (str "b", str "X")]).reverse ∧
    processShapeText [(str "a", str "\x7b\x7bb\x7d\x7d"), (str "b", str "X")]
        (str "\x7b\x7ba\x7d\x7d") = str "X" ∧
    processShapeText [(str "b", str "X"), (str "a", str "\x7b\x7bb\x7d\x7d")]
        (str "\x7b\x7ba\x7d\x7d") = str "\x7b\x7bb\x7d\x7d" ∧
    processShapeText [(str "a", str "\x7b\x7bb\x7d\x7d"), (str "b", str "X")]
        (str "\x7b\x7ba\x7d\x7d") ≠
      processShapeText [(str "b", str "X"), (str "a", str "\x7b\x7bb\x7d\x7d")]
        (str "\x7b\x7ba\x7d\x7d") := by decide

/-- C5 amended: the final text can depend on the iteration order of the map
(a replacement value may introduce another key's token, as the counterexample
shows); any two iteration orders do agree — both returning the text
unchanged — whenever no key's token occurs in the shape text. -/
theorem C5_order_immaterial_without_tokens (p q : List (Str × Str)) (t : Str)
    (hq : q.Perm p)
    (h : ∀ kv ∈ p, strContains t (mkToken kv.1) = false) :
    processShapeText p t = processShapeText q t ∧
      processShapeText p t = t := by
  have hp := processShapeText_no_token p t h
  have h2 : ∀ kv ∈ q, strContains t (mkToken kv.1) = false :=
    fun kv hm => h kv (hq.mem_iff.mp hm)
  have hqe := processShapeText_no_token q t h2
  exact ⟨hp.trans hqe.symm, hp⟩

/-- Witness for the amended C5 at a concrete two-entry map and text. -/
theorem C5_order_immaterial_without_tokens_witness :
    (([(str "k2", str "v2"), (str "k1", str "v1")] :
        List (Str × Str)).Perm [(str "k1", str "v1"), (str "k2", str "v2")]) ∧
    (∀ kv ∈ [(str "k1", str "v1"), (str "k2", str "v2")],
      strContains (str "plain") (mkToken kv.1) = false) ∧
    (processShapeText [(str "k1", str "v1"), (str "k2", str "v2")]
        (str "plain") =
      processShapeText [(str "k2", str "v2"), (str "k1", str "v1")]
        (str "plain") ∧
      processShapeText [(str "k1", str "v1"), (str "k2", str "v2")]
        (str "plain") = str "plain") :=
  ⟨by decide, by decide,
    C5_order_immaterial_without_tokens
      [(str "k1", str "v1"), (str "k2", str "v2")]
      [(str "k2", str "v2"), (str "k1", str "v1")]
      (str "plain") (by decide) (by decide)⟩

/-- C7: an images-section entry whose file path does not exist raises
`ImageNotFoundError`, which is caught for that entry alone: the shape list is
untouched, one warning is logged, and the loop continues with the remaining
entries from the same state — no global abort. -/
theorem C7_missing_image_file_skipped (fs : Str → Bool)
    (sizes : Str → Nat × Nat) (st : List Shape × List Warning)
    (ref path : Str) (rest : List (Str × Str)) (h : fs path = false) :
    List.foldl (replaceImagesStep fs sizes) st ((ref, path) :: rest) =
      List.foldl (replaceImagesStep fs sizes)
        (st.1, st.2 ++ [Warning.imageFileNotFound path]) rest := by
  simp only [List.foldl_cons]
  congr 1
  simp [replaceImagesStep, h]

/-- Witness for C7: a missing file on a slide with one picture shape. -/
theorem C7_missing_image_file_skipped_witness :
    ((fun _ : Str => false) (str "a.png") = false) ∧
    List.foldl (replaceImagesStep (fun _ => false) (fun _ => (1, 1)))
        ([picShape], []) [(str "pic", str "a.png")] =
      List.foldl (replaceImagesStep (fun _ => false) (fun _ => (1, 1)))
        ((([picShape] : List Shape), ([] : List Warning)).1,
          (([picShape] : List Shape), ([] : List Warning)).2 ++
            [Warning.imageFileNotFound (str "a.png")]) [] :=
  ⟨rfl, C7_missing_image_file_skipped (fun _ => false) (fun _ => (1, 1))
    ([picShape], []) (str "pic") (str "a.png") [] rfl⟩

/-- C8: a payload entry whose slide title is absent from the Slide Index
produces exactly one warning and leaves every slide unchanged, and the
remaining payload entries are processed from the same state — one unknown
slide never aborts the rest of the payload. -/
theorem C8_unknown_slide_skipped (fs : Str → Bool) (sizes : Str → Nat × Nat)
    (slides0 : List Slide) (st : List Slide × List Warning) (name : Str)
    (d : SlideDirective) (rest : List (Str × SlideDirective))
    (h : createSlideMap slides0 name = none) :
    List.foldl (applyDataStep fs sizes (createSlideMap slides0)) st
        ((name, d) :: rest) =
      List.foldl (applyDataStep fs sizes (createSlideMap slides0))
        (st.1, st.2 ++ [Warning.slideNotFound name]) rest := by
  simp only [List.foldl_cons]
  congr 1
  simp [applyDataStep, h]

/-- Witness for C8: a one-slide template and an unknown payload title. -/
theorem C8_unknown_slide_skipped_witness :
    createSlideMap [⟨some (str "T"), []⟩] (str "U") = none ∧
    List.foldl
        (applyDataStep (fun _ => true) (fun _ => (1, 1))
          (createSlideMap [⟨some (str "T"), []⟩]))
        ([⟨some (str "T"), []⟩], []) [(str "U", ⟨none, none, none⟩)] =
      List.foldl
        (applyDataStep (fun _ => true) (fun _ => (1, 1))
          (createSlideMap [⟨some (str "T"), []⟩]))
        (([⟨some (str "T"), []⟩], ([] : List Warning)).1,
          (([⟨some (str "T"), []⟩] : List Slide), ([] : List Warning)).2 ++
            [Warning.slideNotFound (str "U")]) [] :=
  ⟨by decide, C8_unknown_slide_skipped (fun _ => true) (fun _ => (1, 1))
    [⟨some (str "T"), []⟩] ([⟨some (str "T"), []⟩], []) (str "U")
    ⟨none, none, none⟩ [] (by decide)⟩

/-- C10: the two resolvers decide positional-versus-name differently.  Table
resolution parses the reference with `int()`, which accepts signed or
whitespace-padded forms; image resolution requires `str.isdigit`.  The
reference `+1` (likewise ` 1 ` and `-1`) is accepted by `int()` but is not
all digits, so on a slide with two tables the Table Filler selects table 1
positionally, while the Image Substituter treats the same string as a
name/alt-text and, finding no shape so named, logs a name-lookup warning. -/
theorem C10_table_image_reference_divergence :
    pyInt? (str "+1") = some 1 ∧ isdigitPy (str "+1") = false ∧
    pyInt? (str " 1 ") = some 1 ∧ isdigitPy (str " 1 ") = false ∧
    pyInt? (str "-1") = some (-1) ∧ isdigitPy (str "-1") = false ∧
    pyInt? (str "12") = some 12 ∧ isdigitPy (str "12") = true ∧
    resolveTable [tShapeA, tShapeB] (str "+1")
        ⟨none, some [[Scalar.s (str "x")]]⟩ = .positional 1 ∧
    replaceImagesStep (fun _ => true) (fun _ => (1, 1)) ([picShape], [])
        (str "+1", str "img.png") =
      ([picShape], [Warning.noImageNameTarget (str "+1")]) := by decide

/-- C3 counterexample: a non-integer table reference (`myTable`) does not
fall back to name lookup.  With a single table shape whose name is literally
`myTable` and a directive carrying data, the entry is skipped with an error
(the `int()` `ValueError` is caught by the per-entry handler) and the shapes
are unchanged — the claimed name match never happens. -/
theorem C3_counterexample :
    pyInt? (str "myTable") = none ∧
    namedTableShape.name = str "myTable" ∧
    updateTables [namedTableShape]
        [(str "myTable", ⟨none, some [[Scalar.s (str "Z")]]⟩)] =
      ([namedTableShape], [Warning.tableEntryError (str "myTable")]) := by
  decide

/-- C3 amended: a table reference that does not parse as an integer never
reaches the name/identifier fallback: `int()` raises, the per-entry handler
catches the exception, the entry is skipped with an error log, and the
slide's shapes are left unchanged. -/
theorem C3_nonint_ref_skipped (shapes : List Shape) (ws : List Warning)
    (ref : Str) (td : TableDirective) (h : pyInt? ref = none) :
    updateTablesStep (shapes, ws) (ref, td) =
      (shapes, ws ++ [Warning.tableEntryError ref]) := by
  simp [updateTablesStep, resolveTable, h]

/-- Witness for amended C3 at the concrete reference `myTable`. -/
theorem C3_nonint_ref_skipped_witness :
    pyInt? (str "myTable") = none ∧
    updateTablesStep ([namedTableShape], [])
        (str "myTable", ⟨some (str "id"), some [[Scalar.s (str "Z")]]⟩) =
      ([namedTableShape], [Warning.tableEntryError (str "myTable")]) :=
  ⟨by decide, C3_nonint_ref_skipped [namedTableShape] [] (str "myTable")
    ⟨some (str "id"), some [[Scalar.s (str "Z")]]⟩ (by decide)⟩

/-- C4 counterexample: a slide whose title shape has empty text still
contributes a Slide Index entry (keyed by the empty string), because the
code only tests that `slide.shapes.title` is not `None` — contradicting the
claim that only non-empty title text is indexed. -/
theorem C4_counterexample :
    createSlideMap [⟨some [], []⟩] [] = some 0 ∧
    ¬ ∃ sl ∈ ([⟨some [], []⟩] : List Slide), ∃ t, sl.title = some t ∧ t ≠ [] := by
  refine ⟨by decide, ?_⟩
  rintro ⟨sl, hmem, t, hti, hne⟩
  simp only [List.mem_singleton] at hmem
  subst hmem
  simp only [Slide.title] at hti
  exact hne (Option.some_injective _ hti.symm)

/-- The slide-map loop yields an entry for a title exactly when some slide
carries it, whatever the accumulated map says about other titles. -/
theorem createSlideMapAux_isSome (t : Str) (slides : List Slide) :
    ∀ (i : Nat) (m : Str → Option Nat),
      (createSlideMapAux i m slides t).isSome ↔
        (m t).isSome ∨ ∃ sl ∈ slides, sl.title = some t := by
  induction slides with
  | nil => intro i m; simp [createSlideMapAux]
  | cons sl rest ih =>
    intro i m
    rw [show createSlideMapAux i m (sl :: rest) t =
        createSlideMapAux (i + 1) (slideMapUpdate m i sl) rest t from rfl, ih]
    cases h : sl.title with
    | none => simp [slideMapUpdate, h]
    | some tt =>
      by_cases he : t = tt
      · subst he; simp [slideMapUpdate, h]
      · simp only [slideMapUpdate, h, List.mem_cons, Option.some.injEq]
        rw [if_neg he]
        constructor
        · rintro (hm | ⟨sl2, hm2, ht2⟩)
          · exact Or.inl hm
          · exact Or.inr ⟨sl2, Or.inr hm2, ht2⟩
        · rintro (hm | ⟨sl2, hm2 | hm2, ht2⟩)
          · exact Or.inl hm
          · exact absurd (hm2 ▸ ht2) (by simp [h]; exact fun hh => he hh.symm)
          · exact Or.inr ⟨sl2, hm2, ht2⟩

/-- Appending a slide overwrites the map entry for its title (when it has a
title shape) with the new zero-based position. -/
theorem createSlideMapAux_append (t : Str) (slides : List Slide) :
    ∀ (i : Nat) (m : Str → Option Nat) (x : Slide),
      createSlideMapAux i m (slides ++ [x]) t =
        if x.title = some t then some (i + slides.length)
        else createSlideMapAux i m slides t := by
  induction slides with
  | nil =>
    intro i m x
    show slideMapUpdate m i x t = _
    cases h : x.title with
    | none => simp [slideMapUpdate, h, createSlideMapAux]
    | some tt =>
      simp only [slideMapUpdate, h, Option.some.injEq, List.length_nil,
        Nat.add_zero, createSlideMapAux]
      by_cases he : t = tt
      · subst he; simp
      · rw [if_neg he, if_neg (fun hh => he hh.symm)]
  | cons sl rest ih =>
    intro i m x
    show createSlideMapAux (i + 1) (slideMapUpdate m i sl) (rest ++ [x]) t = _
    rw [ih]
    by_cases hx : x.title = some t
    · rw [if_pos hx, if_pos hx]
      congr 1
      simp [List.length_cons]
      omega
    · rw [if_neg hx, if_neg hx]
      rfl

/-- C4 amended: the Slide Index maps a title string to a slide exactly when
some slide's title shape has text equal to that title (empty text included);
slides without a title shape contribute no entry, and appending a slide with
title `t` overwrites any earlier entry for `t` with the new slide's
zero-based position — so duplicates resolve to the last occurrence. -/
theorem C4_title_to_last_slide (slides : List Slide) (t : Str) :
    ((createSlideMap slides t).isSome ↔ ∃ sl ∈ slides, sl.title = some t) ∧
    ∀ x : Slide, createSlideMap (slides ++ [x]) t =
      if x.title = some t then some slides.length
      else createSlideMap slides t := by
  constructor
  · rw [createSlideMap, createSlideMapAux_isSome]
    simp
  · intro x
    rw [createSlideMap, createSlideMapAux_append]
    simp [createSlideMap]

/-- The fallback scan of `_update_tables` never selects positionally. -/
theorem scanFallback_ne_positional (i : Int) (td : TableDirective) :
    ∀ (l : List Shape) (j0 j : Nat), scanFallback i td l j0 ≠ .positional j := by
  intro l
  induction l with
  | nil => intro j0 j h; simp [scanFallback] at h
  | cons sh rest ih =>
    intro j0 j h
    simp only [scanFallback, pyEqStrInt, Bool.false_eq_true, if_false] at h
    cases hid : td.identifier with
    | none =>
      simp only [hid] at h
      exact ih (j0 + 1) j h
    | some ident =>
      simp only [hid] at h
      by_cases hne : ident ≠ []
      · rw [if_pos hne] at h
        cases hte : sh.text with
        | none => simp only [hte] at h; exact TableResolution.noConfusion h
        | some tx =>
          simp only [hte] at h
          by_cases hc : strContains tx ident
          · rw [if_pos hc] at h; cases h
          · rw [if_neg hc] at h; exact ih (j0 + 1) j h
      · rw [if_neg hne] at h
        exact ih (j0 + 1) j h

/-- C6 counterexample: the reference `-1` parses to a negative integer, yet
it selects the last table positionally (Python negative indexing): on a
slide with two tables it resolves to position 1 and the fill is applied to
that table — contradicting the claim that negative references never select
a table positionally. -/
theorem C6_counterexample :
    pyInt? (str "-1") = some (-1) ∧
    resolveTable [tShapeA, tShapeB] (str "-1")
        ⟨none, some [[Scalar.s (str "Z")]]⟩ = .positional 1 ∧
    updateTablesStep ([tShapeA, tShapeB], [])
        (str "-1", ⟨none, some [[Scalar.s (str "Z")]]⟩) =
      ([tShapeA, tShapeBFilled], []) := by decide

/-- C6 amended: for a reference parsing to integer `i`, positional selection
happens exactly when `-len ≤ i < len` over the `len` table shapes (Python
indexing: a negative `i` in range selects position `len + i`; `i < -len`
raises `IndexError` and the entry errors out; `i ≥ len` goes to the fallback
scan, which never selects positionally). -/
theorem C6_positional_iff_python_range (ts : List Shape) (ref : Str)
    (td : TableDirective) (i : Int) (h : pyInt? ref = some i) :
    ((∃ j, resolveTable ts ref td = .positional j) ↔
      -(ts.length : Int) ≤ i ∧ i < (ts.length : Int)) ∧
    ∀ j, resolveTable ts ref td = .positional j →
      (j : Int) = if 0 ≤ i then i else (ts.length : Int) + i := by
  have hres : resolveTable ts ref td =
      (if i < (ts.length : Int) then
        (match pyGet? ts i with
          | some _ =>
            TableResolution.positional
              (if 0 ≤ i then i.toNat else ((ts.length : Int) + i).toNat)
          | none => TableResolution.error)
      else scanFallback i td ts 0) := by
    rw [resolveTable, h]
  by_cases hlt : i < (ts.length : Int)
  · rw [if_pos hlt] at hres
    by_cases hge : 0 ≤ i
    · have hlt2 : i.toNat < ts.length := by omega
      have hg : pyGet? ts i = ts.get? i.toNat := by rw [pyGet?, if_pos hge]
      obtain ⟨a, ha⟩ : ∃ a, ts.get? i.toNat = some a := by
        cases hq : ts.get? i.toNat with
        | none => exact absurd (List.get?_eq_none.mp hq) (by omega)
        | some a => exact ⟨a, rfl⟩
      rw [hg, ha] at hres
      have hres2 : resolveTable ts ref td = .positional i.toNat := by
        rw [hres, if_pos hge]
      refine ⟨⟨fun _ => ⟨by omega, hlt⟩, fun _ => ⟨i.toNat, hres2⟩⟩, ?_⟩
      intro j hj
      rw [hres2] at hj
      cases hj
      rw [if_pos hge]
      omega
    · push_neg at hge
      by_cases hnn : 0 ≤ (ts.length : Int) + i
      · have hlt3 : ((ts.length : Int) + i).toNat < ts.length := by omega
        have hg : pyGet? ts i = ts.get? ((ts.length : Int) + i).toNat := by
          rw [pyGet?, if_neg (by omega), if_pos hnn]
        obtain ⟨a, ha⟩ :
            ∃ a, ts.get? ((ts.length : Int) + i).toNat = some a := by
          cases hq : ts.get? ((ts.length : Int) + i).toNat with
          | none => exact absurd (List.get?_eq_none.mp hq) (by omega)
          | some a => exact ⟨a, rfl⟩
        rw [hg, ha] at hres
        have hres2 : resolveTable ts ref td =
            .positional ((ts.length : Int) + i).toNat := by
          rw [hres, if_neg (by omega : ¬ (0 : Int) ≤ i)]
        refine ⟨⟨fun _ => ⟨by omega, hlt⟩,
          fun _ => ⟨((ts.length : Int) + i).toNat, hres2⟩⟩, ?_⟩
        intro j hj
        rw [hres2] at hj
        cases hj
        rw [if_neg (by omega : ¬ (0 : Int) ≤ i)]
        omega
      · have hg : pyGet? ts i = none := by
          rw [pyGet?, if_neg (by omega), if_neg hnn]
        rw [hg] at hres
        refine ⟨⟨?_, ?_⟩, ?_⟩
        · rintro ⟨j, hj⟩
          rw [hres] at hj
          cases hj
        · rintro ⟨h1, _⟩
          exact absurd h1 (by omega)
        · intro j hj
          rw [hres] at hj
          cases hj
  · rw [if_neg hlt] at hres
    refine ⟨⟨?_, ?_⟩, ?_⟩
    · rintro ⟨j, hj⟩
      rw [hres] at hj
      exact absurd hj (scanFallback_ne_positional i td ts 0 j)
    · rintro ⟨_, h2⟩
      exact absurd h2 hlt
    · intro j hj
      rw [hres] at hj
      exact absurd hj (scanFallback_ne_positional i td ts 0 j)

/-- Witness for amended C6 at the in-range reference `0` on two tables. -/
theorem C6_positional_iff_python_range_witness :
    pyInt? (str "0") = some 0 ∧
    (((∃ j, resolveTable [tShapeA, tShapeB] (str "0") ⟨none, none⟩ =
        .positional j) ↔
      -((([tShapeA, tShapeB] : List Shape).length : Int)) ≤ 0 ∧
        (0 : Int) < (([tShapeA, tShapeB] : List Shape).length : Int)) ∧
    ∀ j, resolveTable [tShapeA, tShapeB] (str "0") ⟨none, none⟩ =
        .positional j →
      (j : Int) = if (0 : Int) ≤ 0 then (0 : Int)
        else (([tShapeA, tShapeB] : List Shape).length : Int) + 0) :=
  ⟨by decide, C6_positional_iff_python_range [tShapeA, tShapeB] (str "0")
    ⟨none, none⟩ 0 (by decide)⟩

/-! ## Table-fill lemmas (for C2) -/

/-- `List.set` seen through `getD`. -/
theorem getD_set (l : List α) (i j : Nat) (a d : α) :
    (l.set i a).getD j d = if i = j ∧ j < l.length then a else l.getD j d := by
  induction l generalizing i j with
  | nil => simp
  | cons x xs ih =>
    cases i with
    | zero =>
      cases j with
      | zero => simp
      | succ j2 => simp
    | succ i2 =>
      cases j with
      | zero => simp
      | succ j2 =>
        simp only [List.set_cons_succ, List.getD_cons_succ, ih,
          List.length_cons]
        by_cases h : i2 = j2 ∧ j2 < xs.length
        · rw [if_pos h, if_pos ⟨by omega, by omega⟩]
        · rw [if_neg h, if_neg (by omega)]

theorem setCellText_cols (t : Table) (r c : Nat) (s : Str) :
    (setCellText t r c s).cols = t.cols := rfl

theorem setCellText_length (t : Table) (r c : Nat) (s : Str) :
    (setCellText t r c s).cells.length = t.cells.length := by
  simp [setCellText]

theorem setCellText_rowLen (t : Table) (r c : Nat) (s : Str) (r2 : Nat) :
    ((setCellText t r c s).cells.getD r2 []).length =
      (t.cells.getD r2 []).length := by
  show ((t.cells.set r ((t.cells.getD r []).set c s)).getD r2 []).length = _
  rw [getD_set]
  by_cases h : r = r2 ∧ r2 < t.cells.length
  · rw [if_pos h, List.length_set, h.1]
  · rw [if_neg h]

theorem setCellText_cell (t : Table) (r c : Nat) (s : Str) (r2 c2 : Nat) :
    cellGetD (setCellText t r c s) r2 c2 =
      if r = r2 ∧ c = c2 ∧ r < t.cells.length ∧
          c < (t.cells.getD r []).length then s
      else cellGetD t r2 c2 := by
  show ((t.cells.set r ((t.cells.getD r []).set c s)).getD r2 []).getD c2 []
      = _
  rw [getD_set]
  by_cases h1 : r = r2
  · subst h1
    by_cases h2 : r < t.cells.length
    · rw [if_pos ⟨rfl, h2⟩, getD_set]
      by_cases h3 : c = c2 ∧ c2 < (t.cells.getD r []).length
      · rw [if_pos h3, if_pos ⟨rfl, h3.1, h2, h3.1 ▸ h3.2⟩]
      · rw [if_neg h3,
          if_neg (by rintro ⟨-, hh1, -, hh2⟩; exact h3 ⟨hh1, hh1 ▸ hh2⟩)]
        rfl
    · rw [if_neg (by tauto), if_neg (by tauto)]
      rfl
  · rw [if_neg (by tauto), if_neg (by tauto)]
    rfl

/-- Unfolding one column of the inner fill loop. -/
theorem fillRowCells_succ (row : List Scalar) (r k : Nat) (t : Table) :
    fillRowCells row r (k + 1) t =
      setCellText (fillRowCells row r k t) r k
        (pyStr (row.getD k (Scalar.s []))) := by
  unfold fillRowCells
  rw [List.range_succ, List.foldl_append]
  rfl

theorem fillRowCells_cols (row : List Scalar) (r k : Nat) (t : Table) :
    (fillRowCells row r k t).cols = t.cols := by
  induction k with
  | zero => rfl
  | succ k2 ih => rw [fillRowCells_succ, setCellText_cols, ih]

theorem fillRowCells_length (row : List Scalar) (r k : Nat) (t : Table) :
    (fillRowCells row r k t).cells.length = t.cells.length := by
  induction k with
  | zero => rfl
  | succ k2 ih => rw [fillRowCells_succ, setCellText_length, ih]

theorem fillRowCells_rowLen (row : List Scalar) (r k : Nat) (t : Table)
    (r2 : Nat) :
    ((fillRowCells row r k t).cells.getD r2 []).length =
      (t.cells.getD r2 []).length := by
  induction k with
  | zero => rfl
  | succ k2 ih => rw [fillRowCells_succ, setCellText_rowLen, ih]

/-- What the inner fill loop writes: exactly columns `c2 < k` of row `r`
(when physically present), from the supplied row data. -/
theorem fillRowCells_cell (row : List Scalar) (r k : Nat) (t : Table)
    (r2 c2 : Nat) :
    cellGetD (fillRowCells row r k t) r2 c2 =
      if r2 = r ∧ c2 < k ∧ r < t.cells.length ∧
          c2 < (t.cells.getD r []).length
      then pyStr (row.getD c2 (Scalar.s []))
      else cellGetD t r2 c2 := by
  induction k with
  | zero => simp [fillRowCells]
  | succ k2 ih =>
    rw [fillRowCells_succ, setCellText_cell, fillRowCells_length,
      fillRowCells_rowLen, ih]
    by_cases hA : r = r2 ∧ k2 = c2 ∧ r < t.cells.length ∧
        k2 < (t.cells.getD r []).length
    · obtain ⟨a1, a2, a3, a4⟩ := hA
      rw [if_pos ⟨a1, a2, a3, a4⟩, if_pos ⟨a1.symm, by omega, a3, by omega⟩,
        a2]
    · rw [if_neg hA]
      by_cases hB : r2 = r ∧ c2 < k2 ∧ r < t.cells.length ∧
          c2 < (t.cells.getD r []).length
      · obtain ⟨b1, b2, b3, b4⟩ := hB
        rw [if_pos ⟨b1, b2, b3, b4⟩, if_pos ⟨b1, by omega, b3, b4⟩]
      · rw [if_neg hB, if_neg ?hc]
        case hc =>
          rintro ⟨c1, clt, c3, c4⟩
          by_cases hk : c2 = k2
          · exact hA ⟨c1.symm, hk.symm, c3, hk ▸ c4⟩
          · exact hB ⟨c1, by omega, c3, c4⟩

/-- `fillTable` is the row loop run for `min(suppliedRows, tableRows)`. -/
theorem fillTable_eq_loop (t : Table) (data : List (List Scalar)) :
    fillTable t data = fillRowsLoop data (min data.length t.cells.length) t :=
  rfl

/-- Unfolding one row of the outer fill loop. -/
theorem fillRowsLoop_succ (data : List (List Scalar)) (n : Nat) (t : Table) :
    fillRowsLoop data (n + 1) t =
      fillRowCells (data.getD n []) n
        (min (data.getD n []).length (fillRowsLoop data n t).cols)
        (fillRowsLoop data n t) := by
  unfold fillRowsLoop
  rw [List.range_succ, List.foldl_append]
  rfl

/-- Full characterisation of the first `n` iterations of the row loop:
dimensions are preserved and exactly the clipped region is overwritten. -/
theorem fillRowsLoop_char (data : List (List Scalar)) (t : Table) (n : Nat) :
    (fillRowsLoop data n t).cols = t.cols ∧
    (fillRowsLoop data n t).cells.length = t.cells.length ∧
    (∀ r2, ((fillRowsLoop data n t).cells.getD r2 []).length =
      (t.cells.getD r2 []).length) ∧
    ∀ r2 c2, cellGetD (fillRowsLoop data n t) r2 c2 =
      if r2 < n ∧ c2 < min (data.getD r2 []).length t.cols ∧
          r2 < t.cells.length ∧ c2 < (t.cells.getD r2 []).length
      then pyStr ((data.getD r2 []).getD c2 (Scalar.s []))
      else cellGetD t r2 c2 := by
  induction n with
  | zero =>
    refine ⟨rfl, rfl, fun r2 => rfl, fun r2 c2 => ?_⟩
    rw [if_neg (by omega)]
    rfl
  | succ n ih =>
    obtain ⟨ihc, ihl, ihr, ihcell⟩ := ih
    refine ⟨?_, ?_, ?_, ?_⟩
    · rw [fillRowsLoop_succ, fillRowCells_cols, ihc]
    · rw [fillRowsLoop_succ, fillRowCells_length, ihl]
    · intro r2
      rw [fillRowsLoop_succ, fillRowCells_rowLen, ihr]
    · intro r2 c2
      rw [fillRowsLoop_succ, fillRowCells_cell, ihcell, ihc, ihl, ihr]
      by_cases hA : r2 = n ∧ c2 < min (data.getD n []).length t.cols ∧
          n < t.cells.length ∧ c2 < (t.cells.getD n []).length
      · obtain ⟨a1, a2, a3, a4⟩ := hA
        subst a1
        rw [if_pos ⟨rfl, a2, a3, a4⟩, if_pos ⟨by omega, a2, a3, a4⟩]
      · rw [if_neg hA]
        by_cases hB : r2 < n ∧ c2 < min (data.getD r2 []).length t.cols ∧
            r2 < t.cells.length ∧ c2 < (t.cells.getD r2 []).length
        · obtain ⟨b1, b2⟩ := hB
          rw [if_pos ⟨b1, b2⟩, if_pos ⟨by omega, b2⟩]
        · rw [if_neg hB, if_neg ?hc]
          case hc =>
            rintro ⟨c1, cr⟩
            by_cases hr : r2 = n
            · subst hr
              exact hA ⟨rfl, cr⟩
            · exact hB ⟨by omega, cr⟩

/-- An in-range `getD` is a member of the list. -/
theorem getD_mem (l : List α) (n : Nat) (d : α) (h : n < l.length) :
    l.getD n d ∈ l := by
  induction l generalizing n with
  | nil => simp at h
  | cons x xs ih =>
    cases n with
    | zero => simp
    | succ n2 =>
      simp only [List.getD_cons_succ]
      exact List.mem_cons_of_mem _ (ih n2 (by simpa using h))

/-- C2: on a rectangular table, filling writes exactly the cells `(r, c)`
with `r < min(suppliedRows, tableRows)` and `c < min(len(suppliedRow r),
tableCols)`, each receiving the string form of the supplied scalar; excess
supplied values are dropped, every other cell keeps its prior text, and the
table's dimensions are unchanged. -/
theorem C2_fill_writes_clipped_region (t : Table) (data : List (List Scalar))
    (hrect : ∀ row ∈ t.cells, row.length = t.cols) (r c : Nat) :
    (fillTable t data).cols = t.cols ∧
    (fillTable t data).cells.length = t.cells.length ∧
    cellGetD (fillTable t data) r c =
      (if r < min data.length t.cells.length ∧
          c < min (data.getD r []).length t.cols
       then pyStr ((data.getD r []).getD c (Scalar.s []))
       else cellGetD t r c) := by
  obtain ⟨hc, hl, hrl, hcell⟩ :=
    fillRowsLoop_char data t (min data.length t.cells.length)
  rw [fillTable_eq_loop]
  refine ⟨hc, hl, ?_⟩
  rw [hcell]
  by_cases hC : r < min data.length t.cells.length ∧
      c < min (data.getD r []).length t.cols
  · obtain ⟨h1, h2⟩ := hC
    have hr1 : r < t.cells.length := by omega
    have hr2 : c < (t.cells.getD r []).length := by
      rw [hrect (t.cells.getD r []) (getD_mem t.cells r [] hr1)]
      omega
    rw [if_pos ⟨h1, h2, hr1, hr2⟩, if_pos ⟨h1, h2⟩]
  · rw [if_neg hC, if_neg (by tauto)]

/-- Witness for C2: the 2x2 sample table filled from a 3x3 matrix, inspected
at the written cell `(1, 1)`. -/
theorem C2_fill_writes_clipped_region_witness :
    (∀ row ∈ sampleTable.cells, row.length = sampleTable.cols) ∧
    ((fillTable sampleTable data3).cols = sampleTable.cols ∧
      (fillTable sampleTable data3).cells.length =
        sampleTable.cells.length ∧
      cellGetD (fillTable sampleTable data3) 1 1 =
        (if 1 < min data3.length sampleTable.cells.length ∧
            1 < min (data3.getD 1 []).length sampleTable.cols
         then pyStr ((data3.getD 1 []).getD 1 (Scalar.s []))
         else cellGetD sampleTable 1 1)) :=
  ⟨by decide,
    C2_fill_writes_clipped_region sampleTable data3 (by decide) 1 1⟩

/-! ## Geometry lemmas (for C1) -/

/-- On nonnegative rationals, Python truncation agrees with the floor. -/
theorem pyTrunc_of_nonneg (q : ℚ) (h : 0 ≤ q) : pyTrunc q = ⌊q⌋ := by
  rw [pyTrunc, if_pos h]

/-- The scale is nonnegative for a nonnegative box and positive image. -/
theorem scaleOf_nonneg (boxW boxH imgW imgH : Int) (hbw : 0 ≤ boxW)
    (hbh : 0 ≤ boxH) (hiw : 0 < imgW) (hih : 0 < imgH) :
    0 ≤ scaleOf boxW boxH imgW imgH := by
  have hiwQ : (0 : ℚ) < (imgW : ℚ) := by exact_mod_cast hiw
  have hihQ : (0 : ℚ) < (imgH : ℚ) := by exact_mod_cast hih
  exact le_min
    (div_nonneg (by exact_mod_cast hbw) hiwQ.le)
    (div_nonneg (by exact_mod_cast hbh) hihQ.le)

/-- Scaling the image width by the scale stays within the box width. -/
theorem scaleOf_mul_width_le (boxW boxH imgW imgH : Int) (hiw : 0 < imgW) :
    (imgW : ℚ) * scaleOf boxW boxH imgW imgH ≤ (boxW : ℚ) := by
  have hiwQ : (0 : ℚ) < (imgW : ℚ) := by exact_mod_cast hiw
  have h1 : scaleOf boxW boxH imgW imgH ≤ (boxW : ℚ) / (imgW : ℚ) :=
    min_le_left _ _
  calc (imgW : ℚ) * scaleOf boxW boxH imgW imgH
      ≤ (imgW : ℚ) * ((boxW : ℚ) / (imgW : ℚ)) :=
        mul_le_mul_of_nonneg_left h1 hiwQ.le
    _ = (boxW : ℚ) := by field_simp

/-- Scaling the image height by the scale stays within the box height. -/
theorem scaleOf_mul_height_le (boxW boxH imgW imgH : Int) (hih : 0 < imgH) :
    (imgH : ℚ) * scaleOf boxW boxH imgW imgH ≤ (boxH : ℚ) := by
  have hihQ : (0 : ℚ) < (imgH : ℚ) := by exact_mod_cast hih
  have h1 : scaleOf boxW boxH imgW imgH ≤ (boxH : ℚ) / (imgH : ℚ) :=
    min_le_right _ _
  calc (imgH : ℚ) * scaleOf boxW boxH imgW imgH
      ≤ (imgH : ℚ) * ((boxH : ℚ) / (imgH : ℚ)) :=
        mul_le_mul_of_nonneg_left h1 hihQ.le
    _ = (boxH : ℚ) := by field_simp

/-- The floor of a scaled dimension lies between `0` and the box size, and
within distance `1` below the exact scaled value. -/
theorem floor_scaled_bounds (q : ℚ) (b : Int) (hq : 0 ≤ q)
    (hqb : q ≤ (b : ℚ)) :
    0 ≤ ⌊q⌋ ∧ ⌊q⌋ ≤ b ∧ q - 1 < (⌊q⌋ : ℚ) ∧ ((⌊q⌋ : ℚ)) ≤ q := by
  refine ⟨Int.le_floor.mpr (by exact_mod_cast hq), ?_,
    Int.sub_one_lt_floor q, Int.floor_le q⟩
  have h2 := Int.floor_le_floor hqb
  rwa [Int.floor_intCast] at h2

/-- The centering offset `int((box - new) / 2)` lies between `0` and
`box - new` when `0 ≤ new ≤ box`. -/
theorem center_offset_bounds (b w : Int) (hw : w ≤ b) :
    pyTrunc (((b - w : Int) : ℚ) / 2) = ⌊((b - w : Int) : ℚ) / 2⌋ ∧
    0 ≤ ⌊((b - w : Int) : ℚ) / 2⌋ ∧ ⌊((b - w : Int) : ℚ) / 2⌋ ≤ b - w := by
  have hbw : (0 : ℚ) ≤ ((b - w : Int) : ℚ) := by
    push_cast
    simpa using sub_nonneg.mpr (show (w : ℚ) ≤ (b : ℚ) by exact_mod_cast hw)
  have hdn : (0 : ℚ) ≤ ((b - w : Int) : ℚ) / 2 := by positivity
  refine ⟨pyTrunc_of_nonneg _ hdn, Int.le_floor.mpr (by exact_mod_cast hdn),
    ?_⟩
  have h2 : ((b - w : Int) : ℚ) / 2 ≤ ((b - w : Int) : ℚ) := half_le_self hbw
  have h3 := Int.floor_le_floor h2
  rwa [Int.floor_intCast] at h3

/-- C1: for a box `(left, top, boxW, boxH)` and an image of pixel size
`(imgW, imgH)`, the replacement picture has size
`(int(imgW * s), int(imgH * s))` with `s = min(boxW/imgW, boxH/imgH)`, is
centered at `(left + int((boxW - newW)/2), top + int((boxH - newH)/2))`, its
size matches the exact scaled size up to truncation by less than one unit,
and it fits inside the original box; in particular a 200x100 box with a
400x100 image yields a 200x50 picture, centered with 25-unit top and bottom
margins. -/
theorem C1_image_replacement_geometry (left top boxW boxH imgW imgH : Int)
    (g : Geom) (s : ℚ) (hg : g = fitGeometry left top boxW boxH imgW imgH)
    (hs : s = scaleOf boxW boxH imgW imgH) (hbw : 0 ≤ boxW) (hbh : 0 ≤ boxH)
    (hiw : 0 < imgW) (hih : 0 < imgH) :
    g.width = ⌊(imgW : ℚ) * s⌋ ∧
    g.height = ⌊(imgH : ℚ) * s⌋ ∧
    g.left = left + ⌊((boxW - g.width : Int) : ℚ) / 2⌋ ∧
    g.top = top + ⌊((boxH - g.height : Int) : ℚ) / 2⌋ ∧
    0 ≤ g.width ∧ g.width ≤ boxW ∧ 0 ≤ g.height ∧ g.height ≤ boxH ∧
    left ≤ g.left ∧ g.left + g.width ≤ left + boxW ∧
    top ≤ g.top ∧ g.top + g.height ≤ top + boxH ∧
    (imgW : ℚ) * s - 1 < (g.width : ℚ) ∧ (g.width : ℚ) ≤ (imgW : ℚ) * s ∧
    (imgH : ℚ) * s - 1 < (g.height : ℚ) ∧ (g.height : ℚ) ≤ (imgH : ℚ) * s ∧
    fitGeometry 0 0 200 100 400 100 = ⟨0, 25, 200, 50⟩ := by
  subst hs
  have hs0 := scaleOf_nonneg boxW boxH imgW imgH hbw hbh hiw hih
  have hiwQ : (0 : ℚ) ≤ (imgW : ℚ) := by positivity
  have hihQ : (0 : ℚ) ≤ (imgH : ℚ) := by positivity
  have hargW : 0 ≤ (imgW : ℚ) * scaleOf boxW boxH imgW imgH :=
    mul_nonneg hiwQ hs0
  have hargH : 0 ≤ (imgH : ℚ) * scaleOf boxW boxH imgW imgH :=
    mul_nonneg hihQ hs0
  obtain ⟨hW0, hWb, hWlo, hWhi⟩ :=
    floor_scaled_bounds ((imgW : ℚ) * scaleOf boxW boxH imgW imgH) boxW
      hargW (scaleOf_mul_width_le boxW boxH imgW imgH hiw)
  obtain ⟨hH0, hHb, hHlo, hHhi⟩ :=
    floor_scaled_bounds ((imgH : ℚ) * scaleOf boxW boxH imgW imgH) boxH
      hargH (scaleOf_mul_height_le boxW boxH imgW imgH hih)
  have hWeq : g.width = ⌊(imgW : ℚ) * scaleOf boxW boxH imgW imgH⌋ := by
    rw [hg]
    exact pyTrunc_of_nonneg _ hargW
  have hHeq : g.height = ⌊(imgH : ℚ) * scaleOf boxW boxH imgW imgH⌋ := by
    rw [hg]
    exact pyTrunc_of_nonneg _ hargH
  obtain ⟨hdWeq, hdW0, hdWle⟩ :=
    center_offset_bounds boxW g.width (hWeq ▸ hWb)
  obtain ⟨hdHeq, hdH0, hdHle⟩ :=
    center_offset_bounds boxH g.height (hHeq ▸ hHb)
  have hLeq : g.left = left + ⌊((boxW - g.width : Int) : ℚ) / 2⌋ := by
    rw [← hdWeq]
    rw [show g.left =
      left + pyTrunc (((boxW -
        pyTrunc ((imgW : ℚ) * scaleOf boxW boxH imgW imgH) : Int) : ℚ) / 2)
      from by rw [hg]; rfl]
    congr 2
    rw [hg]
    rfl
  have hTeq : g.top = top + ⌊((boxH - g.height : Int) : ℚ) / 2⌋ := by
    rw [← hdHeq]
    rw [show g.top =
      top + pyTrunc (((boxH -
        pyTrunc ((imgH : ℚ) * scaleOf boxW boxH imgW imgH) : Int) : ℚ) / 2)
      from by rw [hg]; rfl]
    congr 2
    rw [hg]
    rfl
  refine ⟨hWeq, hHeq, hLeq, hTeq, hWeq ▸ hW0, hWeq ▸ hWb, hHeq ▸ hH0,
    hHeq ▸ hHb, by omega, by omega, by omega, by omega,
    hWeq ▸ hWlo, hWeq ▸ hWhi, hHeq ▸ hHlo, hHeq ▸ hHhi, ?_⟩
  norm_num [fitGeometry, scaleOf, pyTrunc]

/-- Witness for C1: the spec's 200x100 box with a 400x100 image produces a
200x50 picture at offset (0, 25). -/
theorem C1_image_replacement_geometry_witness :
    (0 : Int) ≤ 200 ∧ (0 : Int) ≤ 100 ∧ (0 : Int) < 400 ∧ (0 : Int) < 100 ∧
    fitGeometry 0 0 200 100 400 100 = ⟨0, 25, 200, 50⟩ :=
  ⟨by decide, by decide, by decide, by decide,
    (C1_image_replacement_geometry 0 0 200 100 400 100
        (fitGeometry 0 0 200 100 400 100) (scaleOf 200 100 400 100) rfl rfl
        (by decide) (by decide) (by decide)
        (by decide)).2.2.2.2.2.2.2.2.2.2.2.2.2.2.2.2⟩

end PptxEngine
